import Mathlib

/-!
Verification of the insight-derivation engine of the WhatsApp insights tool.

The embedding below translates `generate_insights` (src/data_ingestion.py,
lines 32-67) and the WhatsApp text normalizer
(src/whatsapp_integration/core.py) into Lean.  Dates are modelled at day
granularity as natural numbers (days since the Unix epoch, which fell on a
Thursday); the pandas weekly period `to_period of W` buckets dates into
Monday-aligned calendar weeks, which on day numbers is `(d + 3) / 7`.

A pandas DataFrame built from a list of records is modelled as a list of
rows.  The `week` column written by `generate_insights` at line 34 is an
`Option Nat` field, `none` on frames coming straight from the parser.
-/

/-- One row of the order DataFrame: columns `date`, `customer`, `item`,
`quantity`, plus the derived `week` column which is absent (`none`) until
`generate_insights` writes it. -/
structure OrderRow where
  date : Nat
  customer : String
  item : String
  quantity : Nat
  week : Option Nat := none
deriving DecidableEq, Repr

/-- `order_df['date'].dt.to_period('W')`: the Monday-aligned calendar week
containing day `d` (days since 1970-01-01, a Thursday). -/
def pweek (d : Nat) : Nat := (d + 3) / 7

/-- Line 34, `order_df['week'] = order_df['date'].dt.to_period('W')`, applied
to one row: the derived week column is written onto the frame in place. -/
def setWeek (r : OrderRow) : OrderRow := { r with week := some (pweek r.date) }

/-- `min` of a list of day numbers (`0` on the empty list, which the callers
below never hit). -/
def listMin : List Nat → Nat
  | [] => 0
  | x :: xs => xs.foldl min x

/-- `max` of a list of day numbers (`0` on the empty list, which the callers
below never hit). -/
def listMax : List Nat → Nat
  | [] => 0
  | x :: xs => xs.foldl max x

/-- Descending-by-total order used by `sort_values(ascending=False)` on the
per-item totals. -/
def qtyGE (a b : String × Nat) : Prop := b.2 ≤ a.2

instance : DecidableRel qtyGE := fun a b => inferInstanceAs (Decidable (b.2 ≤ a.2))

instance : IsTotal (String × Nat) qtyGE := ⟨fun a b => (le_total b.2 a.2).imp id id⟩

instance : IsTrans (String × Nat) qtyGE := ⟨fun _ _ _ h h2 => le_trans h2 h⟩

/-- Code-point lexicographic comparison of character lists, the order in
which pandas (like Python) compares strings.  Written as a structural Bool
function so that concrete instances evaluate inside the kernel. -/
def strLEb : List Char → List Char → Bool
  | [], _ => true
  | _ :: _, [] => false
  | a :: as, b :: bs =>
    if a.toNat < b.toNat then true
    else if b.toNat < a.toNat then false
    else strLEb as bs

/-- Strict code-point lexicographic comparison of character lists. -/
def strLTb : List Char → List Char → Bool
  | [], [] => false
  | [], _ :: _ => true
  | _ :: _, [] => false
  | a :: as, b :: bs =>
    if a.toNat < b.toNat then true
    else if b.toNat < a.toNat then false
    else strLTb as bs

/-- Non-strict string order used by the groupby key sorts. -/
def strLE (a b : String) : Prop := strLEb a.data b.data = true

instance : DecidableRel strLE := fun a b =>
  inferInstanceAs (Decidable (strLEb a.data b.data = true))

/-- Lexicographic order on (customer, item) keys, the order in which
`groupby(['customer','item'])` enumerates its groups. -/
def pairLE (a b : String × String) : Prop :=
  strLTb a.1.data b.1.data = true ∨ (a.1 = b.1 ∧ strLE a.2 b.2)

instance : DecidableRel pairLE := fun a b =>
  inferInstanceAs (Decidable (strLTb a.1.data b.1.data = true ∨ (a.1 = b.1 ∧ strLE a.2 b.2)))

/-- The ascending sorted list of distinct week buckets of the ledger: the
column index produced by `groupby(['item','week']) ... .unstack(fill_value=0)`
(one column per week in which at least one order of any item exists). -/
def allWeeks (df : List OrderRow) : List Nat :=
  List.insertionSort (· ≤ ·) ((df.map (fun r => pweek r.date)).dedup)

/-- The ascending sorted list of distinct items: `item_trends.index`
(groupby sorts its keys). -/
def itemsSorted (df : List OrderRow) : List String :=
  List.insertionSort strLE ((df.map (fun r => r.item)).dedup)

/-- `order_df.groupby(['item','week'])['quantity'].sum()` evaluated at one
(item, week) cell; absent cells are the `fill_value=0` of `unstack`. -/
def itemWeekQty (df : List OrderRow) (it : String) (w : Nat) : Nat :=
  ((df.filter (fun r => r.item == it && pweek r.date == w)).map (fun r => r.quantity)).sum

/-- `item_trends.loc[item]`: the weekly quantity series of one item over all
observed weeks, ascending, zero-filled. -/
def seriesOf (df : List OrderRow) (it : String) : List Nat :=
  (allWeeks df).map (itemWeekQty df it)

/-- `.tail(3)`: the last three entries of a series (the whole series when it
is shorter). -/
def lastThree (l : List Nat) : List Nat := l.drop (l.length - 3)

/-- `item_trends.loc[item].tail(3).values`. -/
def trendOf (df : List OrderRow) (it : String) : List Nat := lastThree (seriesOf df it)

/-- Lines 36-41: collect `(item, trend.tolist())` for items whose three-week
tail exists and satisfies `trend[2] > trend[1] > trend[0]`. -/
def increasingItems (df : List OrderRow) : List (String × List Nat) :=
  (itemsSorted df).filterMap (fun it =>
    match trendOf df it with
    | [a, b, c] => if b < c ∧ a < b then some (it, [a, b, c]) else none
    | _ => none)

/-- `order_df.groupby('item')['quantity'].sum()` at one item. -/
def totalQty (df : List OrderRow) (it : String) : Nat :=
  ((df.filter (fun r => r.item == it)).map (fun r => r.quantity)).sum

/-- The per-item totals, indexed ascending by item as groupby yields them. -/
def itemTotals (df : List OrderRow) : List (String × Nat) :=
  (itemsSorted df).map (fun it => (it, totalQty df it))

/-- Line 42: `.sort_values(ascending=False).head(5)`.  The tie order of the
pandas sort is unspecified; this realization is the stable descending sort of
the ascending-by-item totals. -/
def topItems (df : List OrderRow) : List (String × Nat) :=
  (List.insertionSort qtyGE (itemTotals df)).take 5

/-- Lines 44-46: placeholder stock 8 for every top item, kept when below the
threshold 10. -/
def lowStock (df : List OrderRow) : List (String × Nat) :=
  ((topItems df).map (fun p => (p.1, 8))).filter (fun p => decide (p.2 < 10))

/-- The ascending sorted list of distinct customers: the index of
`order_df.groupby('customer')`. -/
def customersSorted (df : List OrderRow) : List String :=
  List.insertionSort strLE ((df.map (fun r => r.customer)).dedup)

/-- The rows of one customer. -/
def custRows (df : List OrderRow) (c : String) : List OrderRow :=
  df.filter (fun r => r.customer == c)

/-- `customer_orders['min']` for one customer. -/
def firstOrder (df : List OrderRow) (c : String) : Nat :=
  listMin ((custRows df c).map (fun r => r.date))

/-- `customer_orders['max']` for one customer. -/
def lastOrder (df : List OrderRow) (c : String) : Nat :=
  listMax ((custRows df c).map (fun r => r.date))

/-- `customer_orders['count']` for one customer: the number of order lines. -/
def orderCount (df : List OrderRow) (c : String) : Nat :=
  (custRows df c).length

/-- Line 48: `now = order_df['date'].max()`, the reference date. -/
def nowOf (df : List OrderRow) : Nat := listMax (df.map (fun r => r.date))

/-- `customer_orders['days_since_last_order']` for one customer (the global
maximum dominates each per-customer maximum, so plain Nat subtraction is the
pandas day difference). -/
def daysSince (df : List OrderRow) (c : String) : Nat := nowOf df - lastOrder df c

/-- Line 51 and 62: customers with `days_since_last_order <= 14`, in the
ascending customer order of the groupby index. -/
def retainedCustomers (df : List OrderRow) : List String :=
  (customersSorted df).filter (fun c => decide (daysSince df c ≤ 14))

/-- Lines 54-61: the churn subtype assigned inside the churned branch. -/
def churnType (df : List OrderRow) (c : String) : String :=
  if orderCount df c = 1 then "Trial"
  else if lastOrder df c - firstOrder df c < 7 then "Quick Churn"
  else "Slow Churn"

/-- Lines 52-61 and 63: customers with `days_since_last_order > 14`, each
mapped to its churn subtype. -/
def churnedCustomers (df : List OrderRow) : List (String × String) :=
  ((customersSorted df).filter (fun c => decide (14 < daysSince df c))).map
    (fun c => (c, churnType df c))

/-- The distinct (customer, item) keys in the groupby enumeration order. -/
def pairsSorted (df : List OrderRow) : List (String × String) :=
  List.insertionSort pairLE ((df.map (fun r => (r.customer, r.item))).dedup)

/-- `groupby(['customer','item']).size()` at one key: the number of order
lines of that customer for that item (quantities play no role). -/
def pairCount (df : List OrderRow) (c i : String) : Nat :=
  (df.filter (fun r => r.customer == c && r.item == i)).length

/-- Lines 64-66: the records `{customer, item, order_count}` of every key
whose line count exceeds 1. -/
def reorderedItems (df : List OrderRow) : List (String × String × Nat) :=
  (pairsSorted df).filterMap (fun p =>
    if 1 < pairCount df p.1 p.2 then some (p.1, p.2, pairCount df p.1 p.2) else none)

/-- The insight bundle assembled by `generate_insights`. -/
structure Insights where
  increasing_items : List (String × List Nat)
  top_items : List (String × Nat)
  low_stock : List (String × Nat)
  retained_customers : List String
  churned_customers : List (String × String)
  reordered_items : List (String × String × Nat)
deriving DecidableEq, Repr

/-- The bundle of all six insight fields of a ledger. -/
def insightsOf (df : List OrderRow) : Insights :=
  { increasing_items := increasingItems df
    top_items := topItems df
    low_stock := lowStock df
    retained_customers := retainedCustomers df
    churned_customers := churnedCustomers df
    reordered_items := reorderedItems df }

/-- `generate_insights` (src/data_ingestion.py lines 32-67).  A DataFrame
built by `pd.DataFrame` from an empty record list has no columns at all, so
on the empty ledger the very first statement, `order_df['date']` at line 34,
raises `KeyError`; this is the `Except.error` branch.  On a non-empty ledger
the function writes the derived `week` column onto the callers frame (the
returned ledger) and assembles the bundle. -/
def generate_insights (order_df : List OrderRow) :
    Except String (List OrderRow × Insights) :=
  if order_df.isEmpty then
    Except.error "KeyError: date (empty DataFrame has no columns)"
  else
    Except.ok (order_df.map setWeek, insightsOf order_df)

/-- The ledger as left behind by `generate_insights` (the input itself on the
error branch). -/
def outLedger (x : Except String (List OrderRow × Insights)) (dflt : List OrderRow) :
    List OrderRow :=
  match x with
  | Except.ok (l, _) => l
  | Except.error _ => dflt

/-- The bundle computed by `generate_insights` (a fixed default on the error
branch). -/
def outIns (x : Except String (List OrderRow × Insights)) : Insights :=
  match x with
  | Except.ok (_, i) => i
  | Except.error _ => ⟨[], [], [], [], [], []⟩

/-! ### Helper lemmas about the embedded components -/

lemma mem_itemsSorted {df : List OrderRow} {it : String} :
    it ∈ itemsSorted df ↔ it ∈ df.map (fun r => r.item) := by
  unfold itemsSorted
  rw [List.mem_insertionSort, List.mem_dedup]

lemma mem_customersSorted {df : List OrderRow} {c : String} :
    c ∈ customersSorted df ↔ c ∈ df.map (fun r => r.customer) := by
  unfold customersSorted
  rw [List.mem_insertionSort, List.mem_dedup]

lemma mem_pairsSorted {df : List OrderRow} {p : String × String} :
    p ∈ pairsSorted df ↔ p ∈ df.map (fun r => (r.customer, r.item)) := by
  unfold pairsSorted
  rw [List.mem_insertionSort, List.mem_dedup]

lemma length_lastThree (l : List Nat) : (lastThree l).length = min l.length 3 := by
  unfold lastThree
  rw [List.length_drop]
  omega

lemma length_seriesOf (df : List OrderRow) (it : String) :
    (seriesOf df it).length = (allWeeks df).length := by
  unfold seriesOf
  rw [List.length_map]

lemma mem_increasingItems {df : List OrderRow} {it : String} {tv : List Nat} :
    (it, tv) ∈ increasingItems df ↔
      it ∈ itemsSorted df ∧ trendOf df it = tv ∧
        ∃ a b c, tv = [a, b, c] ∧ a < b ∧ b < c := by
  unfold increasingItems
  rw [List.mem_filterMap]
  constructor
  · rintro ⟨x, hx, heq⟩
    split at heq
    · rename_i a b c h3
      split_ifs at heq with hcond
      rcases Option.some.inj heq with h4
      rcases Prod.mk.injEq .. ▸ h4 with ⟨rfl, rfl⟩
      exact ⟨hx, h3, a, b, c, rfl, hcond.2, hcond.1⟩
    · exact absurd heq (by simp)
  · rintro ⟨hx, htr, a, b, c, rfl, hab, hbc⟩
    refine ⟨it, hx, ?_⟩
    rw [htr]
    exact if_pos ⟨hbc, hab⟩

/-! ### Invariance of the insight components under row maps that keep the
relevant columns (used for the week-column write-back and for quantity
irrelevance). -/

lemma map_map_congr (h : OrderRow → OrderRow) {α : Type} (f : OrderRow → α)
    (hf : ∀ r, f (h r) = f r) :
    ∀ df : List OrderRow, (df.map h).map f = df.map f := by
  intro df
  induction df with
  | nil => rfl
  | cons a l ih => simp [hf, ih]

lemma filter_map_congr (h : OrderRow → OrderRow) (p : OrderRow → Bool)
    (hp : ∀ r, p (h r) = p r) :
    ∀ df : List OrderRow, (df.map h).filter p = (df.filter p).map h := by
  intro df
  induction df with
  | nil => rfl
  | cons a l ih =>
    cases hpa : p a <;>
      simp only [List.map_cons, List.filter_cons, hp, hpa, ih] <;> rfl

lemma allWeeks_inv (h : OrderRow → OrderRow) (hdate : ∀ r, (h r).date = r.date)
    (df : List OrderRow) : allWeeks (df.map h) = allWeeks df := by
  unfold allWeeks
  rw [map_map_congr h _ (fun r => by rw [hdate])]

lemma itemsSorted_inv (h : OrderRow → OrderRow) (hitem : ∀ r, (h r).item = r.item)
    (df : List OrderRow) : itemsSorted (df.map h) = itemsSorted df := by
  unfold itemsSorted
  rw [map_map_congr h _ hitem]

lemma customersSorted_inv (h : OrderRow → OrderRow)
    (hcust : ∀ r, (h r).customer = r.customer)
    (df : List OrderRow) : customersSorted (df.map h) = customersSorted df := by
  unfold customersSorted
  rw [map_map_congr h _ hcust]

lemma pairsSorted_inv (h : OrderRow → OrderRow)
    (hcust : ∀ r, (h r).customer = r.customer) (hitem : ∀ r, (h r).item = r.item)
    (df : List OrderRow) : pairsSorted (df.map h) = pairsSorted df := by
  unfold pairsSorted
  rw [map_map_congr h _ (fun r => by rw [hcust, hitem])]

lemma itemWeekQty_inv (h : OrderRow → OrderRow)
    (hdate : ∀ r, (h r).date = r.date) (hitem : ∀ r, (h r).item = r.item)
    (hqty : ∀ r, (h r).quantity = r.quantity)
    (df : List OrderRow) (it : String) (w : Nat) :
    itemWeekQty (df.map h) it w = itemWeekQty df it w := by
  unfold itemWeekQty
  rw [filter_map_congr h _ (fun r => by rw [hitem, hdate]),
    map_map_congr h _ hqty]

lemma totalQty_inv (h : OrderRow → OrderRow)
    (hitem : ∀ r, (h r).item = r.item) (hqty : ∀ r, (h r).quantity = r.quantity)
    (df : List OrderRow) (it : String) :
    totalQty (df.map h) it = totalQty df it := by
  unfold totalQty
  rw [filter_map_congr h _ (fun r => by rw [hitem]), map_map_congr h _ hqty]

lemma increasingItems_inv (h : OrderRow → OrderRow)
    (hdate : ∀ r, (h r).date = r.date) (hitem : ∀ r, (h r).item = r.item)
    (hqty : ∀ r, (h r).quantity = r.quantity)
    (df : List OrderRow) : increasingItems (df.map h) = increasingItems df := by
  unfold increasingItems trendOf lastThree seriesOf
  rw [itemsSorted_inv h hitem, allWeeks_inv h hdate]
  apply List.filterMap_congr
  intro it _
  have hw : itemWeekQty (df.map h) it = itemWeekQty df it :=
    funext (fun w => itemWeekQty_inv h hdate hitem hqty df it w)
  rw [hw]

lemma topItems_inv (h : OrderRow → OrderRow)
    (hitem : ∀ r, (h r).item = r.item) (hqty : ∀ r, (h r).quantity = r.quantity)
    (df : List OrderRow) : topItems (df.map h) = topItems df := by
  unfold topItems itemTotals
  rw [itemsSorted_inv h hitem]
  have hm : (itemsSorted df).map (fun it => (it, totalQty (df.map h) it)) =
      (itemsSorted df).map (fun it => (it, totalQty df it)) :=
    List.map_congr_left (fun it _ => by rw [totalQty_inv h hitem hqty])
  rw [hm]

lemma lowStock_inv (h : OrderRow → OrderRow)
    (hitem : ∀ r, (h r).item = r.item) (hqty : ∀ r, (h r).quantity = r.quantity)
    (df : List OrderRow) : lowStock (df.map h) = lowStock df := by
  unfold lowStock
  rw [topItems_inv h hitem hqty]

lemma custRows_inv (h : OrderRow → OrderRow)
    (hcust : ∀ r, (h r).customer = r.customer)
    (df : List OrderRow) (c : String) :
    custRows (df.map h) c = (custRows df c).map h := by
  unfold custRows
  rw [filter_map_congr h _ (fun r => by rw [hcust])]

lemma lastOrder_inv (h : OrderRow → OrderRow)
    (hcust : ∀ r, (h r).customer = r.customer) (hdate : ∀ r, (h r).date = r.date)
    (df : List OrderRow) (c : String) :
    lastOrder (df.map h) c = lastOrder df c := by
  unfold lastOrder
  rw [custRows_inv h hcust, map_map_congr h _ hdate]

lemma firstOrder_inv (h : OrderRow → OrderRow)
    (hcust : ∀ r, (h r).customer = r.customer) (hdate : ∀ r, (h r).date = r.date)
    (df : List OrderRow) (c : String) :
    firstOrder (df.map h) c = firstOrder df c := by
  unfold firstOrder
  rw [custRows_inv h hcust, map_map_congr h _ hdate]

lemma orderCount_inv (h : OrderRow → OrderRow)
    (hcust : ∀ r, (h r).customer = r.customer)
    (df : List OrderRow) (c : String) :
    orderCount (df.map h) c = orderCount df c := by
  unfold orderCount
  rw [custRows_inv h hcust, List.length_map]

lemma nowOf_inv (h : OrderRow → OrderRow) (hdate : ∀ r, (h r).date = r.date)
    (df : List OrderRow) : nowOf (df.map h) = nowOf df := by
  unfold nowOf
  rw [map_map_congr h _ hdate]

lemma retainedCustomers_inv (h : OrderRow → OrderRow)
    (hcust : ∀ r, (h r).customer = r.customer) (hdate : ∀ r, (h r).date = r.date)
    (df : List OrderRow) : retainedCustomers (df.map h) = retainedCustomers df := by
  unfold retainedCustomers daysSince
  rw [customersSorted_inv h hcust]
  apply List.filter_congr
  intro c _
  rw [nowOf_inv h hdate, lastOrder_inv h hcust hdate]

lemma churnedCustomers_inv (h : OrderRow → OrderRow)
    (hcust : ∀ r, (h r).customer = r.customer) (hdate : ∀ r, (h r).date = r.date)
    (df : List OrderRow) : churnedCustomers (df.map h) = churnedCustomers df := by
  unfold churnedCustomers daysSince churnType
  rw [customersSorted_inv h hcust]
  have hfil : ∀ c : String,
      (decide (14 < nowOf (df.map h) - lastOrder (df.map h) c)) =
        (decide (14 < nowOf df - lastOrder df c)) := by
    intro c
    rw [nowOf_inv h hdate, lastOrder_inv h hcust hdate]
  rw [List.filter_congr (fun c _ => hfil c)]
  apply List.map_congr_left
  intro c _
  rw [orderCount_inv h hcust, lastOrder_inv h hcust hdate, firstOrder_inv h hcust hdate]

lemma pairCount_inv (h : OrderRow → OrderRow)
    (hcust : ∀ r, (h r).customer = r.customer) (hitem : ∀ r, (h r).item = r.item)
    (df : List OrderRow) (c i : String) :
    pairCount (df.map h) c i = pairCount df c i := by
  unfold pairCount
  rw [filter_map_congr h _ (fun r => by rw [hcust, hitem]), List.length_map]

lemma reorderedItems_inv (h : OrderRow → OrderRow)
    (hcust : ∀ r, (h r).customer = r.customer) (hitem : ∀ r, (h r).item = r.item)
    (df : List OrderRow) : reorderedItems (df.map h) = reorderedItems df := by
  unfold reorderedItems
  rw [pairsSorted_inv h hcust hitem]
  apply List.filterMap_congr
  intro p _
  rw [pairCount_inv h hcust hitem]

lemma insightsOf_inv (h : OrderRow → OrderRow)
    (hdate : ∀ r, (h r).date = r.date) (hcust : ∀ r, (h r).customer = r.customer)
    (hitem : ∀ r, (h r).item = r.item) (hqty : ∀ r, (h r).quantity = r.quantity)
    (df : List OrderRow) : insightsOf (df.map h) = insightsOf df := by
  unfold insightsOf
  rw [increasingItems_inv h hdate hitem hqty, topItems_inv h hitem hqty,
    lowStock_inv h hitem hqty, retainedCustomers_inv h hcust hdate,
    churnedCustomers_inv h hcust hdate, reorderedItems_inv h hcust hitem]

lemma length_allWeeks (df : List OrderRow) :
    (allWeeks df).length = ((df.map (fun r => pweek r.date)).dedup).length := by
  unfold allWeeks
  rw [List.length_insertionSort]

/-! ### Claims -/

/-- C1: every entry of `increasing_items` pairs an item with the last three
values of its per-week quantity series (summed per week, weeks ascending,
weeks without orders of the item zero-filled), and those three values are
strictly increasing; an item whose last three values contain an equal or
decreasing adjacent pair is never listed. -/
theorem claim_C1 (df : List OrderRow) :
    (∀ it tv, (it, tv) ∈ (insightsOf df).increasing_items →
      tv = trendOf df it ∧ ∃ a b c, tv = [a, b, c] ∧ a < b ∧ b < c)
    ∧ (∀ it a b c, trendOf df it = [a, b, c] → (b ≤ a ∨ c ≤ b) →
      ∀ tv, (it, tv) ∉ (insightsOf df).increasing_items) := by
  have key : ∀ it tv, (it, tv) ∈ (insightsOf df).increasing_items →
      tv = trendOf df it ∧ ∃ a b c, tv = [a, b, c] ∧ a < b ∧ b < c := by
    intro it tv h
    obtain ⟨-, htr, a, b, c, rfl, hab, hbc⟩ := mem_increasingItems.mp h
    exact ⟨htr.symm, a, b, c, rfl, hab, hbc⟩
  refine ⟨key, ?_⟩
  intro it a b c htr hbad tv hmem
  obtain ⟨htv, a', b', c', htv3, hab, hbc⟩ := key it tv hmem
  rw [htv, htr] at htv3
  rcases htv3 with ⟨rfl, rfl, rfl⟩
  omega

/-- Ledger used to witness C1: the spec example, one item with weekly
quantities [1, 2, 3]. -/
def ledgerC1 : List OrderRow :=
  [⟨0, "Ana", "Dosa", 1, none⟩, ⟨7, "Ana", "Dosa", 2, none⟩, ⟨14, "Ana", "Dosa", 3, none⟩]

/-- C1 witness: the flagged item Dosa carries exactly its last three weekly
values [1, 2, 3], which increase strictly. -/
theorem claim_C1_witness :
    ([1, 2, 3] : List Nat) = trendOf ledgerC1 "Dosa" ∧
      ∃ a b c, ([1, 2, 3] : List Nat) = [a, b, c] ∧ a < b ∧ b < c :=
  (claim_C1 ledgerC1).1 "Dosa" [1, 2, 3] (by decide)

/-- Ledger refuting C2: Naan is ordered in only two distinct weeks (the
second and third ledger weeks), another item covers the first week. -/
def ledgerC2 : List OrderRow :=
  [⟨0, "Ana", "Rice", 1, none⟩, ⟨7, "Ana", "Naan", 1, none⟩, ⟨14, "Ana", "Naan", 2, none⟩]

/-- C2 counterexample: an item whose own order history spans only two
distinct weeks is nevertheless flagged, because `unstack(fill_value=0)`
zero-fills its series over the ledger-wide week axis, here giving [0, 1, 2]. -/
theorem claim_C2_counterexample :
    ("Naan", [0, 1, 2]) ∈ (insightsOf ledgerC2).increasing_items ∧
      ((ledgerC2.filter (fun r => r.item == "Naan")).map (fun r => pweek r.date)).dedup.length = 2 := by
  constructor
  · decide
  · decide

/-- C2 amended: an item is excluded from `increasing_items` whenever the
ledger as a whole spans fewer than three distinct weeks; the three-point
window is taken over the ledger-wide week axis with zero-fill, so an item
with fewer than three weeks of its own history can still be flagged. -/
theorem claim_C2_amended (df : List OrderRow)
    (h : ((df.map (fun r => pweek r.date)).dedup).length < 3) :
    ∀ it tv, (it, tv) ∉ (insightsOf df).increasing_items := by
  intro it tv hmem
  obtain ⟨-, htr, a, b, c, rfl, -, -⟩ := mem_increasingItems.mp hmem
  have h1 : (trendOf df it).length = 3 := by rw [htr]; rfl
  have h2 := length_lastThree (seriesOf df it)
  have h3 := length_seriesOf df it
  have h4 := length_allWeeks df
  unfold trendOf at h1
  omega

/-- Ledger used to witness the amended C2: only two weeks exist at all. -/
def ledgerC2w : List OrderRow :=
  [⟨0, "Ana", "Naan", 1, none⟩, ⟨7, "Ana", "Naan", 2, none⟩]

/-- C2 witness: with only two observed weeks nothing is flagged. -/
theorem claim_C2_witness : ("Naan", [1, 2]) ∉ (insightsOf ledgerC2w).increasing_items :=
  claim_C2_amended ledgerC2w (by decide) "Naan" [1, 2]

/-- C4: on the empty ledger `generate_insights` does not return an empty
bundle — `pd.DataFrame` built from an empty record list has no columns, so
the first statement `order_df['date']` (line 34) raises `KeyError`. -/
theorem claim_C4_empty_raises :
    generate_insights [] =
      Except.error "KeyError: date (empty DataFrame has no columns)" := rfl

/-- C5 counterexample: computing insights mutates the caller ledger — the
derived `week` column is written onto every record (line 34). -/
theorem claim_C5_counterexample :
    outLedger (generate_insights [⟨0, "John", "Biryani", 2, none⟩])
        [⟨0, "John", "Biryani", 2, none⟩] ≠
      [⟨0, "John", "Biryani", 2, none⟩] := by decide

/-- Forgetting the derived week column of a row. -/
def eraseWeek (r : OrderRow) : OrderRow := { r with week := none }

/-- C5 amended: the only change `compute_insights` makes to the caller
ledger is writing the derived `week` column (the calendar week of each row
date); records are neither added nor removed and the `date`, `customer`,
`item`, `quantity` fields are untouched. -/
theorem claim_C5_amended (df df' : List OrderRow) (ins : Insights)
    (h : generate_insights df = Except.ok (df', ins)) :
    df'.map eraseWeek = df.map eraseWeek ∧
      df'.map (fun r => r.week) = df.map (fun r => some (pweek r.date)) := by
  unfold generate_insights at h
  split_ifs at h with he
  rcases Except.ok.inj h with h2
  have h3 : df.map setWeek = df' := congrArg Prod.fst h2
  subst h3
  constructor
  · exact map_map_congr setWeek eraseWeek (fun r => rfl) df
  · rw [List.map_map]
    rfl

/-- Ledger used to witness the amended C5. -/
def ledgerC5w : List OrderRow := [⟨3, "Mia", "Poha", 1, none⟩]

/-- C5 witness: the amended frame property at a concrete one-row ledger. -/
theorem claim_C5_witness :
    (ledgerC5w.map setWeek).map eraseWeek = ledgerC5w.map eraseWeek ∧
      (ledgerC5w.map setWeek).map (fun r => r.week) =
        ledgerC5w.map (fun r => some (pweek r.date)) :=
  claim_C5_amended ledgerC5w (ledgerC5w.map setWeek) (insightsOf ledgerC5w) rfl

/-- C9: running `compute_insights` twice on the same ledger (the second run
sees the frame as left behind by the first, week column included) yields the
identical bundle and leaves the frame fixed. -/
theorem claim_C9 (df df1 df2 : List OrderRow) (i1 i2 : Insights)
    (h1 : generate_insights df = Except.ok (df1, i1))
    (h2 : generate_insights df1 = Except.ok (df2, i2)) :
    i2 = i1 ∧ df2 = df1 := by
  unfold generate_insights at h1 h2
  split_ifs at h1 with he1
  have h1a : df.map setWeek = df1 := congrArg Prod.fst (Except.ok.inj h1)
  have h1b : insightsOf df = i1 := congrArg Prod.snd (Except.ok.inj h1)
  split_ifs at h2 with he2
  have h2a : df1.map setWeek = df2 := congrArg Prod.fst (Except.ok.inj h2)
  have h2b : insightsOf df1 = i2 := congrArg Prod.snd (Except.ok.inj h2)
  subst h1a h1b h2a h2b
  constructor
  · exact insightsOf_inv setWeek (fun _ => rfl) (fun _ => rfl) (fun _ => rfl)
      (fun _ => rfl) df
  · rw [List.map_map]
    apply List.map_congr_left
    intro r _
    rfl

/-- Ledger used to witness C9. -/
def ledgerC9 : List OrderRow := [⟨10, "Raj", "Tea", 1, none⟩]

/-- C9 witness: two successive runs on a concrete ledger agree. -/
theorem claim_C9_witness :
    insightsOf (ledgerC9.map setWeek) = insightsOf ledgerC9 ∧
      (ledgerC9.map setWeek).map setWeek = ledgerC9.map setWeek :=
  claim_C9 ledgerC9 (ledgerC9.map setWeek) ((ledgerC9.map setWeek).map setWeek)
    (insightsOf ledgerC9) (insightsOf (ledgerC9.map setWeek)) rfl rfl

/-- C10: `low_stock` is exactly the top items, each mapped to the placeholder
stock 8, which is always below the threshold 10. -/
theorem claim_C10 (df : List OrderRow) (_hne : df ≠ []) :
    (insightsOf df).low_stock = (insightsOf df).top_items.map (fun p => (p.1, 8)) := by
  show lowStock df = (topItems df).map fun p => (p.1, 8)
  unfold lowStock
  apply List.filter_eq_self.mpr
  intro p hp
  rcases List.mem_map.mp hp with ⟨q, -, rfl⟩
  rfl

/-- Ledger used to witness C10. -/
def ledgerC10 : List OrderRow := [⟨0, "Bo", "Idli", 4, none⟩]

/-- C10 witness at a concrete non-empty ledger. -/
theorem claim_C10_witness :
    (insightsOf ledgerC10).low_stock =
      (insightsOf ledgerC10).top_items.map (fun p => (p.1, 8)) :=
  claim_C10 ledgerC10 (by decide)

/-- C3: with the reference date equal to the ledger-wide maximum order date,
every customer whose last order is at most 14 days old is retained (and never
churned, in particular never Trial); every other customer is churned with
subtype Trial when they have exactly one order line, otherwise Quick Churn
when their lifetime is under 7 days, otherwise Slow Churn. -/
theorem claim_C3 (df : List OrderRow) (c : String)
    (hc : c ∈ df.map (fun r => r.customer)) :
    (daysSince df c ≤ 14 →
      c ∈ (insightsOf df).retained_customers ∧
        ∀ t, (c, t) ∉ (insightsOf df).churned_customers)
    ∧ (14 < daysSince df c →
      c ∉ (insightsOf df).retained_customers ∧
        (c, if orderCount df c = 1 then "Trial"
            else if lastOrder df c - firstOrder df c < 7 then "Quick Churn"
            else "Slow Churn") ∈ (insightsOf df).churned_customers) := by
  have hcs : c ∈ customersSorted df := mem_customersSorted.mpr hc
  constructor
  · intro h14
    constructor
    · show c ∈ retainedCustomers df
      exact List.mem_filter.mpr ⟨hcs, by simpa using h14⟩
    · intro t hmem
      have hmem' : (c, t) ∈ churnedCustomers df := hmem
      rcases List.mem_map.mp hmem' with ⟨c', hc', heq⟩
      have hcc : c' = c := congrArg Prod.fst heq
      subst hcc
      have h2 := (List.mem_filter.mp hc').2
      simp only [decide_eq_true_eq] at h2
      omega
  · intro h14
    constructor
    · intro hmem
      have hmem' : c ∈ retainedCustomers df := hmem
      have h2 := (List.mem_filter.mp hmem').2
      simp only [decide_eq_true_eq] at h2
      omega
    · show (c, _) ∈ churnedCustomers df
      have hcf : c ∈ (customersSorted df).filter (fun c => decide (14 < daysSince df c)) :=
        List.mem_filter.mpr ⟨hcs, by simpa using h14⟩
      exact List.mem_map.mpr ⟨c, hcf, rfl⟩

/-- Ledger used to witness C3: a customer with a single order dated at the
reference date itself. -/
def ledgerC3 : List OrderRow :=
  [⟨100, "Solo", "Dal", 1, none⟩, ⟨100, "Ada", "Dal", 2, none⟩]

/-- C3 witness: a single-order customer with recency 0 is retained and in
particular is not the churn subtype Trial. -/
theorem claim_C3_witness :
    "Solo" ∈ (insightsOf ledgerC3).retained_customers ∧
      ("Solo", "Trial") ∉ (insightsOf ledgerC3).churned_customers :=
  ⟨((claim_C3 ledgerC3 "Solo" (by decide)).1 (by decide)).1,
   ((claim_C3 ledgerC3 "Solo" (by decide)).1 (by decide)).2 "Trial"⟩

/-- C6: `top_items` lists min(5, number of distinct items) entries, each item
paired with its ledger-wide total quantity, in descending order of total,
with no duplicate items, and every item left out has a total no larger than
every listed one. -/
theorem claim_C6 (df : List OrderRow) :
    (insightsOf df).top_items.length = min 5 (itemsSorted df).length
    ∧ (∀ p ∈ (insightsOf df).top_items, p.2 = totalQty df p.1)
    ∧ (insightsOf df).top_items.Pairwise (fun a b => b.2 ≤ a.2)
    ∧ ((insightsOf df).top_items.map (fun p => p.1)).Nodup
    ∧ (∀ it, it ∈ df.map (fun r => r.item) →
        it ∉ (insightsOf df).top_items.map (fun p => p.1) →
        ∀ p ∈ (insightsOf df).top_items, totalQty df it ≤ p.2) := by
  have hperm : List.Perm (List.insertionSort qtyGE (itemTotals df)) (itemTotals df) :=
    List.perm_insertionSort qtyGE (itemTotals df)
  have hsorted : (List.insertionSort qtyGE (itemTotals df)).Pairwise qtyGE :=
    List.sorted_insertionSort qtyGE (itemTotals df)
  have hlen : (itemTotals df).length = (itemsSorted df).length := by
    unfold itemTotals
    rw [List.length_map]
  have hmemS : ∀ p, p ∈ (insightsOf df).top_items → p ∈ itemTotals df := by
    intro p hp
    exact hperm.mem_iff.mp (List.mem_of_mem_take hp)
  refine ⟨?_, ?_, ?_, ?_, ?_⟩
  · show (List.take 5 (List.insertionSort qtyGE (itemTotals df))).length = _
    rw [List.length_take, hperm.length_eq, hlen]
  · intro p hp
    rcases List.mem_map.mp (hmemS p hp) with ⟨it, -, rfl⟩
    rfl
  · exact List.Pairwise.sublist (List.take_sublist 5 _) hsorted
  · have h1 : (itemTotals df).map (fun p => p.1) = itemsSorted df := by
      unfold itemTotals
      rw [List.map_map]
      exact List.map_id _
    have h2 : (itemsSorted df).Nodup := by
      unfold itemsSorted
      exact ((List.perm_insertionSort strLE _).nodup_iff).mpr (List.nodup_dedup _)
    have h3 : ((List.insertionSort qtyGE (itemTotals df)).map (fun p => p.1)).Nodup := by
      refine ((hperm.map (fun p => p.1)).nodup_iff).mpr ?_
      rw [h1]
      exact h2
    have h4 : List.Sublist ((insightsOf df).top_items.map (fun p => p.1))
        ((List.insertionSort qtyGE (itemTotals df)).map (fun p => p.1)) := by
      show ((List.take 5 _).map _).Sublist _
      rw [List.map_take]
      exact List.take_sublist 5 _
    exact h3.sublist h4
  · intro it hit hnot p hp
    have hit' : it ∈ itemsSorted df := mem_itemsSorted.mpr hit
    have hmem : (it, totalQty df it) ∈ itemTotals df := by
      unfold itemTotals
      exact List.mem_map.mpr ⟨it, hit', rfl⟩
    have hS : (it, totalQty df it) ∈ List.insertionSort qtyGE (itemTotals df) :=
      hperm.mem_iff.mpr hmem
    rw [← List.take_append_drop 5 (List.insertionSort qtyGE (itemTotals df))] at hS
    rcases List.mem_append.mp hS with hS | hS
    · exact absurd (List.mem_map_of_mem (fun p => p.1) hS) hnot
    · have hpw : ((List.insertionSort qtyGE (itemTotals df)).take 5 ++
          (List.insertionSort qtyGE (itemTotals df)).drop 5).Pairwise qtyGE := by
        rw [List.take_append_drop]
        exact hsorted
      exact (List.pairwise_append.mp hpw).2.2 p hp _ hS

/-- Ledger used to witness C6: the spec example totals Biryani 10, Curry 7,
Rice 5, Naan 3, Salad 1, Soda 1. -/
def ledgerC6 : List OrderRow :=
  [⟨0, "X", "Biryani", 10, none⟩, ⟨0, "X", "Curry", 7, none⟩, ⟨0, "X", "Rice", 5, none⟩,
   ⟨0, "X", "Naan", 3, none⟩, ⟨0, "X", "Salad", 1, none⟩, ⟨0, "X", "Soda", 1, none⟩]

/-- C6 witness: Soda, the sixth-ranked item, is excluded and its total is no
larger than that of the listed fifth item. -/
theorem claim_C6_witness : totalQty ledgerC6 "Soda" ≤ ("Salad", (1 : Nat)).2 :=
  (claim_C6 ledgerC6).2.2.2.2 "Soda" (by decide) (by decide) ("Salad", 1) (by decide)

/-- C7: `reordered_items` holds exactly the (customer, item) pairs occurring
on more than one order line, each with order_count equal to that number of
lines; the quantities on the lines are irrelevant. -/
theorem claim_C7 (df : List OrderRow) (c i : String) (k : Nat) :
    ((c, i, k) ∈ (insightsOf df).reordered_items ↔
      k = pairCount df c i ∧ 1 < pairCount df c i)
    ∧ ∀ g : OrderRow → Nat,
      reorderedItems (df.map (fun r => { r with quantity := g r })) =
        reorderedItems df := by
  constructor
  · constructor
    · intro hmem
      have hmem' : (c, i, k) ∈ reorderedItems df := hmem
      rcases List.mem_filterMap.mp hmem' with ⟨p, hp, heq⟩
      split_ifs at heq with hcnt
      · rcases Option.some.inj heq with h4
        have h1 : p.1 = c := congrArg (fun x => x.1) h4
        have h2 : p.2 = i := congrArg (fun x => x.2.1) h4
        have h3 : pairCount df p.1 p.2 = k := congrArg (fun x => x.2.2) h4
        subst h1
        subst h2
        exact ⟨h3.symm, hcnt⟩
    · rintro ⟨rfl, hcnt⟩
      have hpos : 0 < (df.filter (fun r => r.customer == c && r.item == i)).length := by
        unfold pairCount at hcnt
        omega
      rcases List.exists_mem_of_length_pos hpos with ⟨r, hr⟩
      have hr2 := List.mem_filter.mp hr
      have hb := hr2.2
      simp only [Bool.and_eq_true, beq_iff_eq] at hb
      have hpair : (c, i) ∈ df.map (fun r => (r.customer, r.item)) :=
        List.mem_map.mpr ⟨r, hr2.1, by rw [hb.1, hb.2]⟩
      have hps : (c, i) ∈ pairsSorted df := mem_pairsSorted.mpr hpair
      show (c, i, pairCount df c i) ∈ reorderedItems df
      exact List.mem_filterMap.mpr ⟨(c, i), hps, by rw [if_pos hcnt]⟩
  · intro g
    exact reorderedItems_inv (fun r => { r with quantity := g r })
      (fun r => rfl) (fun r => rfl) df

/-- Ledger used to witness C7: John orders Biryani on two dates and Naan
once. -/
def ledgerC7 : List OrderRow :=
  [⟨0, "John", "Biryani", 2, none⟩, ⟨20, "John", "Biryani", 1, none⟩,
   ⟨20, "John", "Naan", 1, none⟩]

/-- C7 witness: the pair (John, Biryani) with order_count 2 is reported. -/
theorem claim_C7_witness :
    ("John", "Biryani", 2) ∈ (insightsOf ledgerC7).reordered_items :=
  (claim_C7 ledgerC7 "John" "Biryani" 2).1.mpr (by decide)

/-!
### The WhatsApp text normalizer

Embedding of `WhatsAppIntegration.extract_orders_from_text`
(src/whatsapp_integration/core.py, lines 129-164) together with its helpers
`parse_date` (lines 80-103) and `parse_items` (lines 105-127).  Strings are
handled at ASCII granularity (the sample data is ASCII; Python uses the same
whitespace set there).  The surrounding order-pattern regex
`Order:\s*(.*?)\s*\|\s*Name:\s*(.*?)\s*\|\s*Date:\s*(.*?)$` is modelled by
the `RawMsg` type: one constructor for a line the pattern does not match,
one carrying the line plus its three capture groups.
-/

/-- The Python regex whitespace class `\s` (also the set stripped by
`str.strip()`): space, tab, newline, carriage return, vertical tab, form
feed. -/
def pyWs (c : Char) : Bool :=
  c == ' ' || c == '\t' || c == '\n' || c == '\r' || c == Char.ofNat 11 || c == Char.ofNat 12

/-- `str.strip()` on a character list. -/
def pyStripList (s : List Char) : List Char :=
  ((s.dropWhile pyWs).reverse.dropWhile pyWs).reverse

/-- `str.strip()`. -/
def pyStrip (s : String) : String := (pyStripList s.data).asString

/-- `str.split(sep)` for a one-character separator (empty pieces kept, as in
Python). -/
def splitOnCharList (sep : Char) : List Char → List (List Char)
  | [] => [[]]
  | c :: cs =>
    if c = sep then [] :: splitOnCharList sep cs
    else
      match splitOnCharList sep cs with
      | [] => [[c]]
      | g :: gs => (c :: g) :: gs

/-- `int` of a string of decimal digits. -/
def natOfDigits (l : List Char) : Nat :=
  l.foldl (fun a c => a * 10 + (c.toNat - 48)) 0

/-- A `datetime.date` value as produced by `datetime.strptime`. -/
structure PyDate where
  year : Nat
  month : Nat
  day : Nat
deriving DecidableEq, Repr

/-- Gregorian leap-year rule used by `datetime`. -/
def isLeap (y : Nat) : Bool := (y % 4 == 0 && y % 100 != 0) || y % 400 == 0

/-- Length of a month, as validated by the `datetime` constructor. -/
def daysInMonth (y m : Nat) : Nat :=
  if m = 2 then (if isLeap y then 29 else 28)
  else if m = 4 ∨ m = 6 ∨ m = 9 ∨ m = 11 then 30
  else 31

/-- The `datetime(year, month, day)` constructor: `None` models the
`ValueError` raised on out-of-range fields (`MINYEAR = 1`,
`MAXYEAR = 9999`). -/
def mkDate (y m d : Nat) : Option PyDate :=
  if 1 ≤ y ∧ y ≤ 9999 ∧ 1 ≤ m ∧ m ≤ 12 ∧ 1 ≤ d ∧ d ≤ daysInMonth y m then some ⟨y, m, d⟩
  else none

/-- The `strptime` directive `%m` (`1[0-2]|0[1-9]|[1-9]`): one or two digits
with value 1 to 12. -/
def monthOk (seg : List Char) : Bool :=
  seg.all Char.isDigit && decide (1 ≤ seg.length) && decide (seg.length ≤ 2) &&
    decide (1 ≤ natOfDigits seg) && decide (natOfDigits seg ≤ 12)

/-- The `strptime` directive `%d` (`3[01]|[12]\d|0[1-9]|[1-9]`): one or two
digits with value 1 to 31. -/
def dayOk (seg : List Char) : Bool :=
  seg.all Char.isDigit && decide (1 ≤ seg.length) && decide (seg.length ≤ 2) &&
    decide (1 ≤ natOfDigits seg) && decide (natOfDigits seg ≤ 31)

/-- The pivot applied by `strptime` to a two-digit `%y` year: 00-68 land in
the 2000s, 69-99 in the 1900s. -/
def y2k (v : Nat) : Nat := if v ≤ 68 then 2000 + v else 1900 + v

/-- `datetime.strptime(s, "%m<sep>%d<sep>%y")` (two-digit year) or
`"%m<sep>%d<sep>%Y"` (four-digit year): the whole string must split into
exactly three separator-delimited digit fields. -/
def strptimeMDY (sep : Char) (twoDigitYear : Bool) (s : List Char) : Option PyDate :=
  match splitOnCharList sep s with
  | [ms, ds, ys] =>
    if monthOk ms && dayOk ds && ys.all Char.isDigit &&
        (if twoDigitYear then decide (ys.length = 2) else decide (ys.length = 4)) then
      mkDate (if twoDigitYear then y2k (natOfDigits ys) else natOfDigits ys)
        (natOfDigits ms) (natOfDigits ds)
    else none
  | _ => none

/-- `datetime.strptime(s, "%Y-%m-%d")`: `%Y` is exactly four digits. -/
def strptimeYMD (s : List Char) : Option PyDate :=
  match splitOnCharList '-' s with
  | [ys, ms, ds] =>
    if ys.all Char.isDigit && decide (ys.length = 4) && monthOk ms && dayOk ds then
      mkDate (natOfDigits ys) (natOfDigits ms) (natOfDigits ds)
    else none
  | _ => none

/-- The inner format loop of `parse_date`: the five formats tried in order
on one regex group. -/
def tryAllFormats (g : List Char) : Option PyDate :=
  match strptimeMDY '/' true g with
  | some d => some d
  | none =>
    match strptimeMDY '/' false g with
    | some d => some d
    | none =>
      match strptimeMDY '-' true g with
      | some d => some d
      | none =>
        match strptimeMDY '-' false g with
        | some d => some d
        | none => strptimeYMD g

/-- One attempt of the regex `\d{1,2}<sep>\d{1,2}<sep>\d{2,4}` anchored at
the start of `s`: a digit run of length 1-2 (a longer run cannot be followed
by the separator), the separator, again, then greedily two to four digits. -/
def matchSlashDashAt (sep : Char) (s : List Char) : Option (List Char) :=
  let a := s.takeWhile Char.isDigit
  let r1 := s.dropWhile Char.isDigit
  if a.length = 0 ∨ 2 < a.length then none
  else
    match r1 with
    | c :: r2 =>
      if c = sep then
        let b := r2.takeWhile Char.isDigit
        let r3 := r2.dropWhile Char.isDigit
        if b.length = 0 ∨ 2 < b.length then none
        else
          match r3 with
          | c2 :: r4 =>
            if c2 = sep then
              let e := (r4.takeWhile Char.isDigit).take 4
              if 2 ≤ e.length then some (a ++ c :: b ++ c2 :: e) else none
            else none
          | [] => none
      else none
    | [] => none

/-- One attempt of the regex `\d{4}-\d{1,2}-\d{1,2}` anchored at the start
of `s`. -/
def matchP3At (s : List Char) : Option (List Char) :=
  let a := s.takeWhile Char.isDigit
  let r1 := s.dropWhile Char.isDigit
  if a.length ≠ 4 then none
  else
    match r1 with
    | c :: r2 =>
      if c = '-' then
        let b := r2.takeWhile Char.isDigit
        let r3 := r2.dropWhile Char.isDigit
        if b.length = 0 ∨ 2 < b.length then none
        else
          match r3 with
          | c2 :: r4 =>
            if c2 = '-' then
              let e := (r4.takeWhile Char.isDigit).take 2
              if 1 ≤ e.length then some (a ++ c :: b ++ c2 :: e) else none
            else none
          | [] => none
      else none
    | [] => none

/-- `re.search`: the match attempt is run at every start position from the
left; the first success wins. -/
def reSearch (m : List Char → Option (List Char)) : List Char → Option (List Char)
  | [] => m []
  | c :: t =>
    match m (c :: t) with
    | some g => some g
    | none => reSearch m t

/-- `WhatsAppIntegration.parse_date` (lines 80-103): each of the three date
regexes is searched for in turn; on a hit all five formats are tried on the
captured group; a group no format accepts falls through to the next
pattern. -/
def parse_date (date_str : String) : Option PyDate :=
  let s := date_str.data
  match
    match reSearch (matchSlashDashAt '/') s with
    | some g => tryAllFormats g
    | none => none
  with
  | some d => some d
  | none =>
    match
      match reSearch (matchSlashDashAt '-') s with
      | some g => tryAllFormats g
      | none => none
    with
    | some d => some d
    | none =>
      match reSearch matchP3At s with
      | some g => tryAllFormats g
      | none => none

/-- One attempt of `re.match(r"(\d+)\s+(.+)", part)`: a digit run, a
whitespace run, then at least one character; `.` does not match newlines, so
when only whitespace remains the greedy `\s+` backtracks far enough to hand
`(.+)` one character, which must not be a newline. -/
def reMatchQtyItem (s : List Char) : Option (Nat × List Char) :=
  let ds := s.takeWhile Char.isDigit
  let r1 := s.dropWhile Char.isDigit
  if ds.isEmpty then none
  else
    let ws := r1.takeWhile pyWs
    let r2 := r1.dropWhile pyWs
    if ws.isEmpty then none
    else
      match r2 with
      | c :: _ => some (natOfDigits ds, (c :: r2.tail).takeWhile (fun x => x ≠ '\n'))
      | [] =>
        match ws.reverse.dropWhile (fun x => x == '\n') with
        | c :: tailr => if 1 ≤ tailr.length then some (natOfDigits ds, [c]) else none
        | [] => none

/-- `WhatsAppIntegration.parse_items` (lines 105-127): split on commas,
strip each part, keep the parts matching `(\d+)\s+(.+)` as
(stripped item name, quantity). -/
def parse_items (items_raw : String) : List (String × Nat) :=
  ((splitOnCharList ',' items_raw.data).map pyStripList).filterMap
    (fun part =>
      (reMatchQtyItem part).map (fun qi => ((pyStripList qi.2).asString, qi.1)))

/-- One pasted line as seen through
`re.search(self.order_pattern, line, re.IGNORECASE)`: either no match, or a
match carrying the original line and the three capture groups. -/
inductive RawMsg where
  | noMatch (line : String)
  | matched (line items_raw name date_str : String)
deriving DecidableEq, Repr

/-- One extracted order record (lines 155-161). -/
structure ParsedOrder where
  date : PyDate
  customer : String
  item : String
  quantity : Nat
  raw_message : String
deriving DecidableEq, Repr

/-- The records contributed by a single line (lines 145-161): nothing
without a pattern match, nothing when the date fails to parse, otherwise one
record per parsed item part. -/
def lineOrders (msg : RawMsg) : List ParsedOrder :=
  match msg with
  | RawMsg.noMatch _ => []
  | RawMsg.matched line g1 g2 g3 =>
    match parse_date (pyStrip g3) with
    | none => []
    | some d =>
      (parse_items (pyStrip g1)).map (fun itq =>
        ⟨d, pyStrip g2, itq.1, itq.2, pyStrip line⟩)

/-- `WhatsAppIntegration.extract_orders_from_text` over the already split
lines of the pasted text. -/
def extract_orders_from_text (lines : List RawMsg) : List ParsedOrder :=
  lines.flatMap lineOrders

/-- C8 counterexample: a record whose quantity token is `0` — not a positive
integer — is returned with quantity 0 instead of being dropped. -/
theorem claim_C8_counterexample :
    extract_orders_from_text
        [RawMsg.matched "Order: 0 Naan | Name: John | Date: 2024-07-15" "0 Naan" "John"
          "2024-07-15"] =
      [⟨⟨2024, 7, 15⟩, "John", "Naan", 0,
        "Order: 0 Naan | Name: John | Date: 2024-07-15"⟩] := by
  decide

/-- C8 amended: the normalizer drops, without raising, every line the order
pattern does not match and every matched line whose date fails to parse, and
drops every item part whose quantity token is not a string of digits; every
returned record stems from a matched line with a successfully parsed date
and carries the value of a digit-string quantity token — which may be zero:
quantity-0 records are kept, not dropped. -/
theorem claim_C8_amended :
    (∀ l rest, extract_orders_from_text (RawMsg.noMatch l :: rest) =
      extract_orders_from_text rest)
    ∧ (∀ line g1 g2 g3 rest, parse_date (pyStrip g3) = none →
      extract_orders_from_text (RawMsg.matched line g1 g2 g3 :: rest) =
        extract_orders_from_text rest)
    ∧ (∀ lines r, r ∈ extract_orders_from_text lines →
      ∃ line g1 g2 g3, RawMsg.matched line g1 g2 g3 ∈ lines ∧
        parse_date (pyStrip g3) = some r.date ∧
        r.customer = pyStrip g2 ∧ r.raw_message = pyStrip line ∧
        ∃ part ∈ (splitOnCharList ',' (pyStrip g1).data).map pyStripList,
          ∃ qi, reMatchQtyItem part = some qi ∧
            r.item = (pyStripList qi.2).asString ∧ r.quantity = qi.1) := by
  refine ⟨?_, ?_, ?_⟩
  · intro l rest
    rfl
  · intro line g1 g2 g3 rest h
    unfold extract_orders_from_text
    rw [List.flatMap_cons]
    have hnil : lineOrders (RawMsg.matched line g1 g2 g3) = [] := by
      simp only [lineOrders]
      rw [h]
    rw [hnil, List.nil_append]
  · intro lines r hmem
    unfold extract_orders_from_text at hmem
    rcases List.mem_flatMap.mp hmem with ⟨msg, hmsg, hr⟩
    cases msg with
    | noMatch l => exact absurd hr (by simp [lineOrders])
    | matched line g1 g2 g3 =>
      rcases hd : parse_date (pyStrip g3) with _ | d
      · simp only [lineOrders] at hr
        rw [hd] at hr
        exact absurd hr (by simp)
      · simp only [lineOrders] at hr
        rw [hd] at hr
        rcases List.mem_map.mp hr with ⟨itq, hitq, rfl⟩
        unfold parse_items at hitq
        rcases List.mem_filterMap.mp hitq with ⟨part, hpart, hsome⟩
        rcases hq : reMatchQtyItem part with _ | qi
        · rw [hq] at hsome
          exact absurd hsome (by simp)
        · rw [hq] at hsome
          have heq := Option.some.inj hsome
          refine ⟨line, g1, g2, g3, hmsg, hd, rfl, rfl, part, hpart, qi, hq, ?_, ?_⟩
          · exact (congrArg Prod.fst heq).symm
          · exact (congrArg Prod.snd heq).symm

/-- C8 witness: a matched line with an unparseable date contributes
nothing. -/
theorem claim_C8_witness :
    extract_orders_from_text [RawMsg.matched "x" "1 A" "B" "nodate"] =
      extract_orders_from_text [] :=
  claim_C8_amended.2.1 "x" "1 A" "B" "nodate" [] (by decide)
